import Mathlib

/-!
Verification development for the go-mongo-generic repository: a shallow
embedding of its pagination arithmetic (models.go), its CRUD wrappers and the
two implementation variants of the index reconciler (impl.go), with theorems
settling the spec's claims about them.

Conventions used throughout:
* Go `int64` values are modelled as `Int`; where overflow matters the
  two's-complement wraparound is made explicit with `wrap64`.
* Store interactions are modelled as traces of issued operations plus an
  explicit state-transition function, so "what is sent to the store" and
  "what the store looks like afterwards" are both first-class.
* Fallible Go functions are modelled with `Except`/`Option`; a `none` result
  of an `Option`-valued model marks a Go runtime panic (nil dereference).
-/

/-- Two's-complement wraparound at 64 bits: the value a Go `int64`
assignment stores for the mathematical integer `x`. -/
def wrap64 (x : Int) : Int := (x + 2 ^ 63) % 2 ^ 64 - 2 ^ 63

/-- The `Pagination` struct of models.go.  All five fields are Go `int64`,
modelled as `Int`; the Go zero value gives every field `0`. -/
structure Pagination where
  pageLimit : Int := 0
  offset : Int := 0
  pageCurrent : Int := 0
  totalPage : Int := 0
  totalRecord : Int := 0
  deriving DecidableEq

/-- The all-zero `Pagination` (Go zero value). -/
def pag0 : Pagination := {}

/-- `Pagination.Init` from models.go: clamps `page` below by 1 and `limit`
above by 100, then stores `offset = limit * (page - 1)`.  The multiplication
is Go `int64` arithmetic, hence the explicit `wrap64`. -/
def Pagination.Init (p : Pagination) (page limit : Int) : Pagination :=
  let page := if page < 1 then 1 else page
  let limit := if limit > 100 then 100 else limit
  { p with pageCurrent := page, pageLimit := limit,
           offset := wrap64 (limit * (page - 1)) }

/-- `Pagination.SetTotalRecord` from models.go.  The source computes
`int64(math.Ceil(float64(totalRecord) / float64(p.PageLimit)))`; this model
uses the exact integer ceiling `(t + limit - 1) / limit` (floor division).
For `0 ≤ totalRecord < 2^53` and `1 ≤ pageLimit < 2^53` the IEEE-754 binary64
division of two exactly-representable integers cannot round down across an
integer boundary (the quotient error stays below half an ulp there), so the
model agrees with the float64 computation on that range — every concrete use
below is inside it.  Outside it the float64 code diverges from the exact
ceiling; claim C6 records that divergence. -/
def Pagination.SetTotalRecord (p : Pagination) (totalRecord : Int) : Pagination :=
  { p with totalRecord := totalRecord,
           totalPage := (totalRecord + p.pageLimit - 1) / p.pageLimit }

/- ------------------------------------------------------------------ -/
/- CRUD wrappers of impl.go needed by claims C7-C10.                   -/
/- ------------------------------------------------------------------ -/

/-- `FindOptions`: the two fields of the driver's find options that
`implCollection.Find` writes (`SetSkip`, `SetLimit`).  A `none` field is an
option the caller left unset. -/
structure FindOptions where
  skip : Option Int := none
  limit : Option Int := none
  deriving DecidableEq

/-- Operations issued against the read connection by `Find`, recording the
filter and (for the query) the effective options. -/
inductive StoreOp (Doc : Type) where
  | countRead (filter : Doc → Bool)
  | findRead (filter : Doc → Bool) (opt : FindOptions)

/-- `CountDocuments` on the read connection: number of documents matching
the filter. -/
def countDocuments {Doc : Type} (store : List Doc) (filter : Doc → Bool) : Int :=
  ((store.filter filter).length : Int)

/-- The driver's `Find` against a store whose matching documents come back
in store order: apply the filter, then skip, then limit. -/
def execFind {Doc : Type} (store : List Doc) (filter : Doc → Bool)
    (opt : FindOptions) : List Doc :=
  let matched := store.filter filter
  let matched := match opt.skip with
    | some s => matched.drop s.toNat
    | none => matched
  match opt.limit with
  | some l => matched.take l.toNat
  | none => matched

/-- `implCollection.Find` (impl.go lines 34-57): with a pagination object it
counts on the read connection, re-initialises the pagination from its own
current page/limit fields, stores the total, injects skip/limit into the
options, and only then queries the read connection.  Returns the trace of
issued read-connection operations, the pagination object as left behind, and
the decoded results. -/
def implFind {Doc : Type} (store : List Doc) (filter : Doc → Bool)
    (opt : FindOptions) (pg : Option Pagination) :
    List (StoreOp Doc) × Option Pagination × List Doc :=
  match pg with
  | none => ([StoreOp.findRead filter opt], none, execFind store filter opt)
  | some pagination =>
      let total := countDocuments store filter
      let pg1 := pagination.Init pagination.pageCurrent pagination.pageLimit
      let pg2 := pg1.SetTotalRecord total
      let opt2 := { opt with skip := some pg2.offset, limit := some pg2.pageLimit }
      ([StoreOp.countRead filter, StoreOp.findRead filter opt2],
       some pg2, execFind store filter opt2)

/-- Error string of the driver's `mongo.ErrEmptySlice`. -/
def errEmptySliceMsg : String := "must provide at least one element in input slice"

/-- Models the documented contract of the external mongo driver's
`Collection.InsertMany`: an empty documents slice is rejected with
`ErrEmptySlice` before any command is issued to the store; otherwise the
documents are appended.  (The driver is an external collaborator of the
repository; this is its stable, documented behaviour.) -/
def driverInsertMany {Doc : Type} (store docs : List Doc) :
    Except String (List Doc) :=
  if docs.isEmpty then Except.error errEmptySliceMsg
  else Except.ok (store ++ docs)

/-- `implCollection.InsertMany` (impl.go lines 86-93): converts the typed
slice to an untyped interface slice (length-preserving, modelled as the
identity) and hands it to the driver unconditionally — there is no
empty-input special case in the repository code. -/
def implInsertMany {Doc : Type} (store docs : List Doc) :
    Except String (List Doc) :=
  driverInsertMany store docs

/-- The fields of the driver's `UpdateOptions` relevant here: the index
hint (`nil` hint modelled as `none`). -/
structure UpdateOptions where
  hint : Option String := none
  deriving DecidableEq

/-- An update payload as sent to the driver: either the caller's document
unchanged, or wrapped as a set-operator document. -/
inductive UpdateDoc (α : Type) where
  | raw (u : α)
  | setWrap (u : α)
  deriving DecidableEq

/-- Write operations issued against the write connection. -/
inductive WriteOp (α : Type) where
  | updateOne (filter : α) (update : UpdateDoc α)
  deriving DecidableEq

/-- `implCollection.UpdateOne`, second variant (impl.go lines 376-384):
refuses to proceed when the options carry no index hint, returning
the error string used by the source before issuing any write; otherwise
wraps the update in a set-operator document and issues it.  The returned
list is the trace of write operations issued to the store. -/
def implUpdateOne2 {α : Type} (filter update : α) (opts : UpdateOptions) :
    Except String (List (WriteOp α)) :=
  if opts.hint.isNone then Except.error "miss hint index"
  else Except.ok [WriteOp.updateOne filter (UpdateDoc.setWrap update)]

/-- The fields of the driver's `FindOneOptions` that could influence a
single-document query (enough to distinguish caller intents). -/
structure FindOneOptions where
  skip : Option Int := none
  sortSpec : Option (List (String × Int)) := none
  deriving DecidableEq

/-- The zero value `new(options.FindOneOptions)`: every field nil. -/
def emptyFindOneOptions : FindOneOptions := {}

/-- The query a `FindOne` call sends to the read connection: the filter and
the options actually passed to the driver. -/
structure FindOneQuery (Doc : Type) where
  filter : Doc → Bool
  opt : FindOneOptions

/-- Error string of the driver's `mongo.ErrNoDocuments`. -/
def errNoDocumentsMsg : String := "mongo: no documents in result"

/-- The driver's `FindOne` under default (empty) options: first matching
document in store order, or `ErrNoDocuments`.  The sort semantics of a
non-default `sortSpec` is never needed below because the code under study
only ever sends the empty options. -/
def execFindOne {Doc : Type} (store : List Doc) (filter : Doc → Bool)
    (opt : FindOneOptions) : Except String Doc :=
  let matched := store.filter filter
  let matched := match opt.skip with
    | some s => matched.drop s.toNat
    | none => matched
  match matched.head? with
  | some d => Except.ok d
  | none => Except.error errNoDocumentsMsg

/-- `implCollection.FindOne`, second variant (impl.go lines 260-274): the
caller's options are received but never read; the query is issued with a
freshly constructed zero-value `FindOneOptions` (`bOpt`).  Returns the
query actually issued and the decoded result. -/
def implFindOne2 {Doc : Type} (store : List Doc) (filter : Doc → Bool)
    (opt : FindOneOptions) : FindOneQuery Doc × Except String Doc :=
  let bOpt : FindOneOptions := {}
  (⟨filter, bOpt⟩, execFindOne store filter bOpt)

/- ------------------------------------------------------------------ -/
/- Index reconciliation (EnsureIndexes, both variants of impl.go).     -/
/- ------------------------------------------------------------------ -/

/-- The driver's `options.IndexOptions` name field (`*string`, so an
`Option String`). -/
structure IndexOptions where
  name : Option String
  deriving DecidableEq

/-- The driver's `mongo.IndexModel`: a key specification (field names with
sort directions, order-significant) and optional options (`*IndexOptions`). -/
structure IndexModel where
  keys : List (String × Int)
  options : Option IndexOptions
  deriving DecidableEq

/-- A live index on the collection as reported by `Indexes().List`. -/
structure LiveIndex where
  name : String
  keys : List (String × Int)
  deriving DecidableEq

/-- The caller-assigned name of a descriptor, when both `Options` and
`Options.Name` are non-nil. -/
def IndexModel.nameOpt (i : IndexModel) : Option String :=
  i.options.bind (fun o => o.name)

/-- Index commands issued against the write connection. -/
inductive IndexOp where
  | dropOne (name : String)
  | createOne (idx : IndexModel)
  deriving DecidableEq

/-- The default name the driver derives for a descriptor created without a
caller-assigned name: the key fields and directions joined by underscores. -/
def defaultName (keys : List (String × Int)) : String :=
  String.intercalate "_" (keys.map (fun kv => kv.1 ++ "_" ++ toString kv.2))

/-- The name under which `CreateOne` registers a descriptor. -/
def createdName (i : IndexModel) : String :=
  (i.nameOpt).getD (defaultName i.keys)

/-- The names of a live index list. -/
def liveNames (live : List LiveIndex) : List String := live.map (fun l => l.name)

/-- Step 1 of the first `EnsureIndexes` variant (impl.go lines 144-166):
the contents of the `existing` name set — every listed index name except
the implicit `"_id_"`.  The Go code stores these in a map; `dedup` models
the set contents (live index names are unique on a real collection, and no
claim below depends on the map's unspecified iteration order). -/
def existingNames (live : List LiveIndex) : List String :=
  ((live.filter (fun l => decide (l.name ≠ "_id_"))).map (fun l => l.name)).dedup

/-- Step 2 of the first variant (impl.go lines 168-174): the `expected`
name set — names of descriptors whose `Options` and `Options.Name` are both
non-nil; unnamed descriptors contribute nothing (and trigger no error). -/
def expectedNames (indexes : List IndexModel) : List String :=
  indexes.filterMap (fun i => i.nameOpt)

/-- First `EnsureIndexes` variant (impl.go lines 141-193) as the trace of
index commands it issues: drop every existing name not expected (steps 3),
then `CreateOne` for every descriptor of the input — named or not, already
present or not (step 4).  Listing, dropping and creating succeed against
the abstract store, so the error return is always nil and is omitted. -/
def ensureIndexes1 (indexes : List IndexModel) (live : List LiveIndex) :
    List IndexOp :=
  ((existingNames live).filter
      (fun n => !(decide (n ∈ expectedNames indexes)))).map IndexOp.dropOne
    ++ indexes.map IndexOp.createOne

/-- Byte-wise lexicographic string comparison, as Go's `<=` on strings
(identical to code-point order for the ASCII names used here). -/
def charListLe : List Char → List Char → Bool
  | [], _ => true
  | _ :: _, [] => false
  | a :: as, b :: bs =>
    if a.toNat < b.toNat then true
    else if b.toNat < a.toNat then false
    else charListLe as bs

/-- Go string `<=`. -/
def strLe (s t : String) : Bool := charListLe s.data t.data

/-- Sort key used by the second variant's `sort.Slice` comparator. -/
def nameKey (i : IndexModel) : String := (i.nameOpt).getD ""

/-- Insertion step of a stable sort by name. -/
def insertByName (i : IndexModel) : List IndexModel → List IndexModel
  | [] => [i]
  | j :: rest =>
    if strLe (nameKey i) (nameKey j) then i :: j :: rest
    else j :: insertByName i rest

/-- Stable insertion sort by descriptor name, modelling the second
variant's `sort.Slice(indexes, ...Name <= ...Name)`.  `sort.Slice` is
unstable, but on name-distinct inputs (the only ones reaching it in the
claims below, since duplicates either panic earlier or carry distinct
names) every sort by this key produces the same list. -/
def sortByName (l : List IndexModel) : List IndexModel :=
  l.foldr insertByName []

/-- Second `EnsureIndexes` variant (impl.go lines 287-356).  A `none`
result models a Go nil-pointer panic: the `sort.Slice` comparator and the
diff loop both dereference `Options.Name` without nil checks, so an
unnamed descriptor panics as soon as either runs — the comparator runs
when the slice has at least two elements (a correct sort must compare
every element at least once), the diff loop body when the listing holds
any index besides `"_id_"`.  Otherwise the result is the issued trace:
drops of unmatched live names in listing order, then `CreateOne` for every
descriptor in sorted order. -/
def dropNames2 (indexes : List IndexModel) (live : List LiveIndex) : List String :=
  ((live.filter (fun l => decide (l.name ≠ "_id_"))).filter
    (fun l => !(decide (∃ v ∈ sortByName indexes, v.nameOpt = some l.name)))).map
      (fun l => l.name)

/-- Second `EnsureIndexes` variant, assembled from `dropNames2` (its diff
loop, the doc comment above) and the sorted create pass. -/
def ensureIndexes2 (indexes : List IndexModel) (live : List LiveIndex) :
    Option (List IndexOp) :=
  if 2 ≤ indexes.length ∧ (∃ i ∈ indexes, i.nameOpt = none) then none
  else if (∃ l ∈ live, l.name ≠ "_id_") ∧ (∃ i ∈ indexes, i.nameOpt = none) then none
  else some ((dropNames2 indexes live).map IndexOp.dropOne
    ++ (sortByName indexes).map IndexOp.createOne)

/-- Effect of one issued index command on the live set.  `DropOne` removes
the named index; `CreateOne` registers the descriptor under `createdName`
unless an index of that name already exists, in which case the store is
unchanged (the idempotent-create contract for an identical specification —
every create issued below against an existing name carries the same keys). -/
def applyOp (live : List LiveIndex) : IndexOp → List LiveIndex
  | IndexOp.dropOne n => live.filter (fun l => decide (l.name ≠ n))
  | IndexOp.createOne i =>
      if (∃ l ∈ live, l.name = createdName i) then live
      else live ++ [⟨createdName i, i.keys⟩]

/-- Effect of a command trace, applied left to right. -/
def applyOps (live : List LiveIndex) (ops : List IndexOp) : List LiveIndex :=
  ops.foldl applyOp live

/-- The commands of a trace that actually change the store — the effective
operations, with no-op creates filtered out. -/
def effectiveOps (live : List LiveIndex) : List IndexOp → List IndexOp
  | [] => []
  | op :: rest =>
    if applyOp live op = live then effectiveOps (applyOp live op) rest
    else op :: effectiveOps (applyOp live op) rest

/- Concrete scenario material shared by C1-C4. -/

/-- Desired descriptor A of the C1 scenario. -/
def idxA : IndexModel := ⟨[("field", 1)], some ⟨some "A"⟩⟩

/-- Desired descriptor B of the C1 scenario. -/
def idxB : IndexModel := ⟨[("field", -1)], some ⟨some "B"⟩⟩

/-- The implicit primary-key index. -/
def liveId : LiveIndex := ⟨"_id_", [("_id", 1)]⟩

/-- Live index A of the C1 scenario (same specification as `idxA`). -/
def liveA : LiveIndex := ⟨"A", [("field", 1)]⟩

/-- Live index C of the C1 scenario. -/
def liveC : LiveIndex := ⟨"C", [("field", 1)]⟩

/-- A descriptor with nil `Options`. -/
def idxUnnamed : IndexModel := ⟨[("age", 1)], none⟩

/-- A descriptor with non-nil `Options` but nil `Options.Name`. -/
def idxNilName : IndexModel := ⟨[("age", 1)], some ⟨none⟩⟩

/- ------------------------------------------------------------------ -/
/- Helper lemmas.                                                      -/
/- ------------------------------------------------------------------ -/

/-- A Go `int64` assignment stores in-range integers unchanged. -/
theorem wrap64_eq_self (x : Int) (h0 : 0 ≤ x) (h1 : x < 2 ^ 63) : wrap64 x = x := by
  unfold wrap64
  rw [Int.emod_eq_of_lt (by omega) (by omega)]
  omega

/- ------------------------------------------------------------------ -/
/- Claims.                                                             -/
/- ------------------------------------------------------------------ -/

/-- C1, counterexample: in the spec scenario (desired A asc, B desc; live
`_id_`, A, C) the sequence of index commands issued to the store is not
`drop(C), create(B)` — neither variant issues that trace, because both also
issue a `CreateOne` for A. -/
theorem C1_not_as_claimed :
    ensureIndexes1 [idxA, idxB] [liveId, liveA, liveC]
        ≠ [IndexOp.dropOne "C", IndexOp.createOne idxB]
    ∧ ensureIndexes2 [idxA, idxB] [liveId, liveA, liveC]
        ≠ some [IndexOp.dropOne "C", IndexOp.createOne idxB] := by
  refine ⟨?_, ?_⟩ <;> decide

/-- C1, amended: in the spec scenario both variants issue exactly
`drop(C), create(A), create(B)` — all drops before any create, the single
drop trivially in lexicographic order, and a create for every desired
descriptor.  The effective store changes of that trace are exactly
`drop(C)` then `create(B)`: the `create(A)` is a no-op against the
identical live index, so A is left unchanged, as the final live set
confirms. -/
theorem C1_issued_sequence :
    ensureIndexes1 [idxA, idxB] [liveId, liveA, liveC]
        = [IndexOp.dropOne "C", IndexOp.createOne idxA, IndexOp.createOne idxB]
    ∧ ensureIndexes2 [idxA, idxB] [liveId, liveA, liveC]
        = some [IndexOp.dropOne "C", IndexOp.createOne idxA, IndexOp.createOne idxB]
    ∧ effectiveOps [liveId, liveA, liveC]
        [IndexOp.dropOne "C", IndexOp.createOne idxA, IndexOp.createOne idxB]
        = [IndexOp.dropOne "C", IndexOp.createOne idxB]
    ∧ applyOps [liveId, liveA, liveC]
        [IndexOp.dropOne "C", IndexOp.createOne idxA, IndexOp.createOne idxB]
        = [liveId, liveA, ⟨"B", [("field", -1)]⟩] := by
  refine ⟨?_, ?_, ?_, ?_⟩ <;> decide

/-- C4: what the code actually does with unnamed descriptors (nil `Options`
or nil `Options.Name`) — the claim says they are rejected or skipped with a
reported error.  The second variant panics (nil dereference) as soon as the
diff loop or the sort comparator runs.  The first variant reports nothing:
it silently drops the descriptor from the expected set yet still issues a
`CreateOne` for it, which registers it under the driver default name
`age_1`; on the next run that very index is dropped and recreated, so the
unnamed descriptor is partially reconciled, not rejected. -/
theorem C4_unnamed_descriptor_behavior :
    ensureIndexes2 [idxUnnamed] [liveId, liveA] = none
    ∧ ensureIndexes2 [idxNilName] [liveId, liveA] = none
    ∧ ensureIndexes2 [idxUnnamed, idxA] [liveId] = none
    ∧ ensureIndexes1 [idxUnnamed] [liveId, liveA]
        = [IndexOp.dropOne "A", IndexOp.createOne idxUnnamed]
    ∧ createdName idxUnnamed = "age_1"
    ∧ ensureIndexes1 [idxUnnamed]
        (applyOps [liveId] (ensureIndexes1 [idxUnnamed] [liveId]))
        = [IndexOp.dropOne "age_1", IndexOp.createOne idxUnnamed] := by
  refine ⟨?_, ?_, ?_, ?_, ?_, ?_⟩ <;> decide

/-- C5, amended: after `Init(page, limit)` with `page ≥ 1` and
`limit ∈ [1, 100]` the stored offset is `limit * (page - 1)` provided that
product fits in an int64 (it wraps otherwise — see the counterexample);
`Init` with `page < 1` produces the same state as with `page = 1`, and
`Init` with `limit > 100` the same state as with `limit = 100`,
unconditionally. -/
theorem C5_offset_formula (p : Pagination) (page limit pLow lAny pAny lHigh : Int)
    (h1 : 1 ≤ page) (h2 : 1 ≤ limit) (h3 : limit ≤ 100)
    (h4 : limit * (page - 1) < 2 ^ 63) (h5 : pLow < 1) (h6 : 100 < lHigh) :
    (p.Init page limit).offset = limit * (page - 1)
    ∧ p.Init pLow lAny = p.Init 1 lAny
    ∧ p.Init pAny lHigh = p.Init pAny 100 := by
  refine ⟨?_, ?_, ?_⟩
  · have hp : ¬ page < 1 := by omega
    have hl : ¬ limit > 100 := by omega
    simp only [Pagination.Init, if_neg hp, if_neg hl]
    exact wrap64_eq_self _ (mul_nonneg (by omega) (by omega)) h4
  · have h1' : ¬ (1 : Int) < 1 := by omega
    simp only [Pagination.Init, if_pos h5, if_neg h1']
  · have hh : lHigh > 100 := by omega
    have h100 : ¬ (100 : Int) > 100 := by omega
    simp only [Pagination.Init, if_pos hh, if_neg h100]

/-- C5 witness: the amended statement at page 3, limit 10 (offset 20), at
page 0 (clamped to 1), and at limit 101 (clamped to 100). -/
theorem C5_offset_formula_witness :
    (pag0.Init 3 10).offset = 10 * (3 - 1)
    ∧ pag0.Init 0 7 = pag0.Init 1 7
    ∧ pag0.Init 5 101 = pag0.Init 5 100 :=
  C5_offset_formula pag0 3 10 0 7 5 101 (by norm_num) (by norm_num)
    (by norm_num) (by norm_num) (by norm_num) (by norm_num)

/-- C5, counterexample: at the valid int64 input page = 2^62 + 1,
limit = 100, the int64 product wraps and the stored offset is 0, not
`limit * (page - 1)`. -/
theorem C5_offset_overflow :
    (pag0.Init (2 ^ 62 + 1) 100).offset = 0
    ∧ (100 : Int) * (2 ^ 62 + 1 - 1) ≠ 0 := by
  refine ⟨?_, ?_⟩
  · decide
  · norm_num

/-- C6: the exact integer ceiling the claim demands, evaluated by the
exact-arithmetic model of `SetTotalRecord`: the spec example
`total_records = 101, limit = 50` gives 3, and the failing input
`total_records = 10^18 + 1, limit = 10^15` gives 1001 — whereas the
source's float64 `math.Ceil` path yields 1000 there, because
`float64(10^18 + 1)` rounds to `10^18` and the division is then exactly
1000.0 (see RESULTS for the full divergence note). -/
theorem C6_exact_ceiling_intent :
    (({ pag0 with pageLimit := 50 }).SetTotalRecord 101).totalPage = 3
    ∧ (({ pag0 with pageLimit := 10 ^ 15 }).SetTotalRecord (10 ^ 18 + 1)).totalPage
        = 1001 := by
  refine ⟨?_, ?_⟩ <;> decide

/-- C8, counterexample: `InsertMany` on an empty input does not succeed —
the empty slice is handed to the driver, which rejects it with
`ErrEmptySlice`. -/
theorem C8_empty_insert_not_ok :
    implInsertMany ([] : List Nat) [] = Except.error errEmptySliceMsg := rfl

/-- C8, amended: for every store, `InsertMany []` forwards the empty batch
to the driver, which rejects it with `ErrEmptySlice` before any command
reaches the store; the repository returns that error (the store is
untouched on this path). -/
theorem C8_empty_insert_rejected : ∀ (Doc : Type) (store : List Doc),
    implInsertMany store [] = Except.error errEmptySliceMsg := by
  intro Doc store
  rfl

/-- C9: under the hint-required policy (the second variant's `UpdateOne`),
any call whose options carry no index hint returns the configuration error
`miss hint index` and the issued write-operation trace is absent — the
error is produced before any write is attempted, so the store is
unchanged. -/
theorem C9_missing_hint {α : Type} (filter update : α) (opts : UpdateOptions)
    (h : opts.hint = none) :
    implUpdateOne2 filter update opts = Except.error "miss hint index" := by
  simp [implUpdateOne2, h]

/-- C9 witness: the hint-free options value at a concrete filter/update. -/
theorem C9_missing_hint_witness :
    ({ hint := none } : UpdateOptions).hint = none
    ∧ implUpdateOne2 (0 : Nat) 1 { hint := none } = Except.error "miss hint index" :=
  ⟨rfl, C9_missing_hint 0 1 { hint := none } rfl⟩

/-- C10: the second variant's `FindOne` ignores the caller's options — for
any two option values the call is literally identical, and the query it
issues carries the freshly constructed empty `FindOneOptions`. -/
theorem C10_findone_ignores_options : ∀ (Doc : Type) (store : List Doc)
    (filter : Doc → Bool) (o1 o2 : FindOneOptions),
    implFindOne2 store filter o1 = implFindOne2 store filter o2
    ∧ (implFindOne2 store filter o1).1.opt = emptyFindOneOptions := by
  intro Doc store filter o1 o2
  exact ⟨rfl, rfl⟩

/-- C7: whenever a pagination object is supplied, `Find` issues exactly a
count with the caller's filter against the read connection followed by the
query against the read connection with the derived skip (the initialized
offset) and limit injected into the caller's options; the pagination is
left initialized with the counted total, and the results are the matches
of that skip/limit query.  In the concrete scenario (25 matching documents,
page 2, limit 10) the call returns documents 11-20 and leaves
total_pages = 3, total_records = 25, offset = 10. -/
theorem C7_find_pagination :
    (∀ (Doc : Type) (store : List Doc) (filter : Doc → Bool)
        (opt : FindOptions) (p : Pagination),
      (implFind store filter opt (some p)).1
          = [StoreOp.countRead filter,
             StoreOp.findRead filter
               { opt with
                 skip := some ((p.Init p.pageCurrent p.pageLimit).offset),
                 limit := some ((p.Init p.pageCurrent p.pageLimit).pageLimit) }]
      ∧ (implFind store filter opt (some p)).2.1
          = some ((p.Init p.pageCurrent p.pageLimit).SetTotalRecord
              (countDocuments store filter))
      ∧ (implFind store filter opt (some p)).2.2
          = execFind store filter
              { opt with
                skip := some ((p.Init p.pageCurrent p.pageLimit).offset),
                limit := some ((p.Init p.pageCurrent p.pageLimit).pageLimit) })
    ∧ (implFind ((List.range 25).map (fun n => n + 1)) (fun _ => true) {}
          (some { pag0 with pageCurrent := 2, pageLimit := 10 })).2.2
        = [11, 12, 13, 14, 15, 16, 17, 18, 19, 20]
    ∧ (implFind ((List.range 25).map (fun n => n + 1)) (fun _ => true) {}
          (some { pag0 with pageCurrent := 2, pageLimit := 10 })).2.1
        = some { pageLimit := 10, offset := 10, pageCurrent := 2,
                 totalPage := 3, totalRecord := 25 } := by
  refine ⟨fun Doc store filter opt p => ⟨rfl, rfl, rfl⟩, ?_, ?_⟩ <;> decide


/- ------------------------------------------------------------------ -/
/- Lemmas on traces of index commands (for C2 and C3).                 -/
/- ------------------------------------------------------------------ -/

/-- Unfolding: a trace applied to a cons. -/
theorem applyOps_cons (live : List LiveIndex) (op : IndexOp) (ops : List IndexOp) :
    applyOps live (op :: ops) = applyOps (applyOp live op) ops := rfl

/-- Unfolding: a trace applied to an append. -/
theorem applyOps_append (live : List LiveIndex) (a b : List IndexOp) :
    applyOps live (a ++ b) = applyOps (applyOps live a) b := by
  simp [applyOps]

/-- Unfolding: the effect of a single drop. -/
theorem applyOp_dropOne (live : List LiveIndex) (n : String) :
    applyOp live (IndexOp.dropOne n) = live.filter (fun l => decide (l.name ≠ n)) := rfl

/-- Unfolding: the effect of a single create. -/
theorem applyOp_createOne (live : List LiveIndex) (i : IndexModel) :
    applyOp live (IndexOp.createOne i)
      = if ∃ l ∈ live, l.name = createdName i then live
        else live ++ [⟨createdName i, i.keys⟩] := rfl

/-- Unfolding: effective operations of a cons. -/
theorem effectiveOps_cons (live : List LiveIndex) (op : IndexOp) (rest : List IndexOp) :
    effectiveOps live (op :: rest)
      = if applyOp live op = live then effectiveOps (applyOp live op) rest
        else op :: effectiveOps (applyOp live op) rest := rfl

/-- Dropping `d` removes exactly the name `d` from the live names. -/
theorem mem_liveNames_dropOne (live : List LiveIndex) (d n : String) :
    n ∈ liveNames (applyOp live (IndexOp.dropOne d)) ↔
      (n ∈ liveNames live ∧ n ≠ d) := by
  rw [applyOp_dropOne]
  simp only [liveNames, List.mem_map, List.mem_filter, decide_eq_true_eq]
  constructor
  · rintro ⟨l, ⟨hl, hd⟩, rfl⟩
    exact ⟨⟨l, hl, rfl⟩, hd⟩
  · rintro ⟨⟨l, hl, rfl⟩, hd⟩
    exact ⟨l, ⟨hl, hd⟩, rfl⟩

/-- A create never removes a live name. -/
theorem mem_liveNames_applyCreate {n : String} {live : List LiveIndex}
    (i : IndexModel) (h : n ∈ liveNames live) :
    n ∈ liveNames (applyOp live (IndexOp.createOne i)) := by
  rw [applyOp_createOne]
  by_cases hc : ∃ l ∈ live, l.name = createdName i
  · rw [if_pos hc]
    exact h
  · rw [if_neg hc]
    simp only [liveNames, List.map_append, List.mem_append]
    exact Or.inl h

/-- After a create, the created name is live. -/
theorem createdName_mem_applyCreate (i : IndexModel) (live : List LiveIndex) :
    createdName i ∈ liveNames (applyOp live (IndexOp.createOne i)) := by
  rw [applyOp_createOne]
  by_cases hc : ∃ l ∈ live, l.name = createdName i
  · rw [if_pos hc]
    obtain ⟨l, hl, he⟩ := hc
    exact List.mem_map.2 ⟨l, hl, he⟩
  · rw [if_neg hc]
    simp [liveNames]

/-- A pure create pass keeps every live name. -/
theorem liveNames_applyCreates_mono (l : List IndexModel) :
    ∀ (live : List LiveIndex) (n : String), n ∈ liveNames live →
      n ∈ liveNames (applyOps live (l.map IndexOp.createOne)) := by
  induction l with
  | nil => intro live n h; exact h
  | cons i rest ih =>
      intro live n h
      rw [List.map_cons, applyOps_cons]
      exact ih _ _ (mem_liveNames_applyCreate i h)

/-- After a create pass over `l`, every created name of `l` is live. -/
theorem createdName_mem_applyCreates (l : List IndexModel) :
    ∀ (live : List LiveIndex) (i : IndexModel), i ∈ l →
      createdName i ∈ liveNames (applyOps live (l.map IndexOp.createOne)) := by
  induction l with
  | nil => intro live i h; cases h
  | cons j rest ih =>
      intro live i h
      rw [List.map_cons, applyOps_cons]
      rcases List.mem_cons.1 h with h1 | h2
      · rw [h1]
        exact liveNames_applyCreates_mono rest _ _ (createdName_mem_applyCreate j live)
      · exact ih _ _ h2

/-- A create pass adds no name beyond the created ones. -/
theorem liveNames_applyCreates_subset (l : List IndexModel) :
    ∀ (live : List LiveIndex) (n : String),
      n ∈ liveNames (applyOps live (l.map IndexOp.createOne)) →
      n ∈ liveNames live ∨ ∃ i ∈ l, createdName i = n := by
  induction l with
  | nil => intro live n h; exact Or.inl h
  | cons j rest ih =>
      intro live n h
      rw [List.map_cons, applyOps_cons] at h
      rcases ih _ _ h with h1 | ⟨i, hi, he⟩
      · rw [applyOp_createOne] at h1
        by_cases hc : ∃ l ∈ live, l.name = createdName j
        · rw [if_pos hc] at h1
          exact Or.inl h1
        · rw [if_neg hc] at h1
          simp only [liveNames, List.map_append, List.mem_append] at h1
          rcases h1 with h1 | h1
          · exact Or.inl h1
          · simp only [List.map_cons, List.map_nil, List.mem_singleton] at h1
            exact Or.inr ⟨j, List.mem_cons_self j rest, h1.symm⟩
      · exact Or.inr ⟨i, List.mem_cons_of_mem _ hi, he⟩

/-- A pure drop pass removes exactly the dropped names. -/
theorem liveNames_applyDrops (ds : List String) :
    ∀ (live : List LiveIndex) (n : String),
      n ∈ liveNames (applyOps live (ds.map IndexOp.dropOne)) ↔
        (n ∈ liveNames live ∧ n ∉ ds) := by
  induction ds with
  | nil =>
      intro live n
      simp [applyOps]
  | cons d rest ih =>
      intro live n
      rw [List.map_cons, applyOps_cons, ih, mem_liveNames_dropOne]
      simp only [List.mem_cons, not_or]
      tauto

/-- Membership in the first variant's `existing` set. -/
theorem mem_existingNames (live : List LiveIndex) (n : String) :
    n ∈ existingNames live ↔ (n ∈ liveNames live ∧ n ≠ "_id_") := by
  unfold existingNames
  rw [List.mem_dedup]
  simp only [liveNames, List.mem_map, List.mem_filter, decide_eq_true_eq]
  constructor
  · rintro ⟨l, ⟨hl, hd⟩, rfl⟩
    exact ⟨⟨l, hl, rfl⟩, hd⟩
  · rintro ⟨⟨l, hl, rfl⟩, hd⟩
    exact ⟨l, ⟨hl, hd⟩, rfl⟩

/-- A create pass against a store that already holds every created name
changes nothing: its effective operations are empty. -/
theorem effectiveOps_creates_nil (l : List IndexModel) :
    ∀ (live : List LiveIndex), (∀ i ∈ l, createdName i ∈ liveNames live) →
      effectiveOps live (l.map IndexOp.createOne) = [] := by
  induction l with
  | nil => intro live _; rfl
  | cons i rest ih =>
      intro live h
      have hany : ∃ x ∈ live, x.name = createdName i := by
        rcases List.mem_map.1 (h i (List.mem_cons_self i rest)) with ⟨l, hl, he⟩
        exact ⟨l, hl, he⟩
      have happ : applyOp live (IndexOp.createOne i) = live := by
        rw [applyOp_createOne, if_pos hany]
      rw [List.map_cons, effectiveOps_cons, happ, if_pos rfl]
      exact ih live (fun j hj => h j (List.mem_cons_of_mem i hj))

/-- C2: the first-variant reconciler is idempotent at the store level.
For any desired list of named descriptors and any live set, run the
reconciler once and let the store evolve accordingly; a second run over
the resulting live set changes nothing — its trace has an empty drop
phase and every create is a no-op, so its effective operations are
empty. -/
theorem C2_idempotent (indexes : List IndexModel) (live : List LiveIndex)
    (hnamed : ∀ i ∈ indexes, i.nameOpt.isSome = true) :
    effectiveOps (applyOps live (ensureIndexes1 indexes live))
      (ensureIndexes1 indexes (applyOps live (ensureIndexes1 indexes live))) = [] := by
  have htrace : ensureIndexes1 indexes live
      = ((existingNames live).filter
          (fun n => !(decide (n ∈ expectedNames indexes)))).map IndexOp.dropOne
        ++ indexes.map IndexOp.createOne := rfl
  have hlive2D : applyOps live (ensureIndexes1 indexes live)
      = applyOps
          (applyOps live (((existingNames live).filter
            (fun n => !(decide (n ∈ expectedNames indexes)))).map IndexOp.dropOne))
          (indexes.map IndexOp.createOne) := by
    rw [htrace, applyOps_append]
  have hsub : ∀ n, n ∈ liveNames (applyOps live (ensureIndexes1 indexes live)) →
      n ≠ "_id_" → n ∈ expectedNames indexes := by
    intro n hn hne
    rw [hlive2D] at hn
    rcases liveNames_applyCreates_subset indexes _ n hn with h1 | ⟨i, hi, he⟩
    · rcases (liveNames_applyDrops _ live n).1 h1 with ⟨hmem, hnotdrop⟩
      have hex : n ∈ existingNames live := (mem_existingNames live n).2 ⟨hmem, hne⟩
      by_contra hnexp
      exact hnotdrop (List.mem_filter.2 ⟨hex, by simp [hnexp]⟩)
    · obtain ⟨m, hm⟩ := Option.isSome_iff_exists.1 (hnamed i hi)
      have hcn : createdName i = m := by
        simp [createdName, hm]
      rw [← he, hcn]
      exact List.mem_filterMap.2 ⟨i, hi, hm⟩
  have hdrops2 : ((existingNames (applyOps live (ensureIndexes1 indexes live))).filter
      (fun n => !(decide (n ∈ expectedNames indexes)))) = [] := by
    apply List.filter_eq_nil_iff.2
    intro n hn
    have hme := (mem_existingNames _ n).1 hn
    have hexp := hsub n hme.1 hme.2
    simp [hexp]
  have hpresent : ∀ i ∈ indexes,
      createdName i ∈ liveNames (applyOps live (ensureIndexes1 indexes live)) := by
    intro i hi
    rw [hlive2D]
    exact createdName_mem_applyCreates indexes _ i hi
  have htrace2 : ensureIndexes1 indexes (applyOps live (ensureIndexes1 indexes live))
      = ((existingNames (applyOps live (ensureIndexes1 indexes live))).filter
          (fun n => !(decide (n ∈ expectedNames indexes)))).map IndexOp.dropOne
        ++ indexes.map IndexOp.createOne := rfl
  have hrun2 : ensureIndexes1 indexes (applyOps live (ensureIndexes1 indexes live))
      = indexes.map IndexOp.createOne := by
    rw [htrace2, hdrops2]
    simp
  rw [hrun2]
  exact effectiveOps_creates_nil indexes _ hpresent

/-- C2 witness: the scenario desired set and live set, with every
descriptor named; the second run is effect-free. -/
theorem C2_idempotent_witness :
    (∀ i ∈ [idxA, idxB], i.nameOpt.isSome = true)
    ∧ effectiveOps
        (applyOps [liveId, liveA, liveC] (ensureIndexes1 [idxA, idxB] [liveId, liveA, liveC]))
        (ensureIndexes1 [idxA, idxB]
          (applyOps [liveId, liveA, liveC]
            (ensureIndexes1 [idxA, idxB] [liveId, liveA, liveC]))) = [] :=
  ⟨by decide, C2_idempotent [idxA, idxB] [liveId, liveA, liveC] (by decide)⟩

/-- Dropping a name other than `"_id_"` leaves the `"_id_"` entries of the
store untouched. -/
theorem filter_id_dropOne (live : List LiveIndex) (n : String) (hn : n ≠ "_id_") :
    (applyOp live (IndexOp.dropOne n)).filter (fun l => decide (l.name = "_id_"))
      = live.filter (fun l => decide (l.name = "_id_")) := by
  rw [applyOp_dropOne, List.filter_filter]
  apply List.filter_congr
  intro a _
  by_cases h : a.name = "_id_"
  · have hne : a.name ≠ n := by
      rw [h]
      exact fun he => hn he.symm
    simp [h, hne]
    exact fun he => hn he.symm
  · simp [h]

/-- Invariant: a trace that never drops `"_id_"`, applied to a store in
which `"_id_"` is live, keeps `"_id_"` live and leaves its entries (name
and key specification) exactly as they were. -/
theorem idPreserved (ops : List IndexOp) :
    ∀ (live : List LiveIndex), "_id_" ∈ liveNames live →
      (∀ n, IndexOp.dropOne n ∈ ops → n ≠ "_id_") →
      ("_id_" ∈ liveNames (applyOps live ops)
        ∧ (applyOps live ops).filter (fun l => decide (l.name = "_id_"))
            = live.filter (fun l => decide (l.name = "_id_"))) := by
  induction ops with
  | nil => intro live h1 _; exact ⟨h1, rfl⟩
  | cons op rest ih =>
      intro live h1 h2
      rw [applyOps_cons]
      match op with
      | IndexOp.dropOne n =>
          have hn : n ≠ "_id_" := h2 n (List.mem_cons_self _ _)
          have hstep1 : "_id_" ∈ liveNames (applyOp live (IndexOp.dropOne n)) := by
            rw [mem_liveNames_dropOne]
            exact ⟨h1, fun he => hn he.symm⟩
          have hrec := ih _ hstep1 (fun m hm => h2 m (List.mem_cons_of_mem _ hm))
          exact ⟨hrec.1, hrec.2.trans (filter_id_dropOne live n hn)⟩
      | IndexOp.createOne i =>
          by_cases hc : ∃ l ∈ live, l.name = createdName i
          · have happ : applyOp live (IndexOp.createOne i) = live := by
              rw [applyOp_createOne, if_pos hc]
            rw [happ]
            exact ih live h1 (fun m hm => h2 m (List.mem_cons_of_mem _ hm))
          · have hne : createdName i ≠ "_id_" := by
              intro he
              apply hc
              rcases List.mem_map.1 h1 with ⟨l, hl, hln⟩
              exact ⟨l, hl, hln.trans he.symm⟩
            have happ : applyOp live (IndexOp.createOne i)
                = live ++ [⟨createdName i, i.keys⟩] := by
              rw [applyOp_createOne, if_neg hc]
            have hstep1 : "_id_" ∈ liveNames (applyOp live (IndexOp.createOne i)) := by
              rw [happ]
              simp only [liveNames, List.map_append, List.mem_append]
              exact Or.inl h1
            have hstep2 : (applyOp live (IndexOp.createOne i)).filter
                  (fun l => decide (l.name = "_id_"))
                = live.filter (fun l => decide (l.name = "_id_")) := by
              rw [happ, List.filter_append]
              have hsing : (([⟨createdName i, i.keys⟩] : List LiveIndex).filter
                  (fun l => decide (l.name = "_id_"))) = [] := by
                simp [hne]
              rw [hsing, List.append_nil]
            have hrec := ih _ hstep1 (fun m hm => h2 m (List.mem_cons_of_mem _ hm))
            exact ⟨hrec.1, hrec.2.trans hstep2⟩

/-- The first variant never emits a drop of `"_id_"`. -/
theorem drop1_not_id (indexes : List IndexModel) (live : List LiveIndex) :
    ∀ n, IndexOp.dropOne n ∈ ensureIndexes1 indexes live → n ≠ "_id_" := by
  intro n hn
  rcases List.mem_append.1 hn with h | h
  · rcases List.mem_map.1 h with ⟨m, hm, he⟩
    cases he
    exact ((mem_existingNames live _).1 (List.mem_of_mem_filter hm)).2
  · rcases List.mem_map.1 h with ⟨i, _, he⟩
    exact IndexOp.noConfusion he

/-- The second variant never emits a drop of `"_id_"` either (whenever it
returns a trace at all). -/
theorem drop2_not_id (indexes : List IndexModel) (live : List LiveIndex) :
    ∀ n, IndexOp.dropOne n ∈ (ensureIndexes2 indexes live).getD [] → n ≠ "_id_" := by
  intro n hn
  unfold ensureIndexes2 at hn
  split at hn
  · simp at hn
  · split at hn
    · simp at hn
    · simp only [Option.getD_some] at hn
      rcases List.mem_append.1 hn with h | h
      · rcases List.mem_map.1 h with ⟨m, hm, he⟩
        cases he
        unfold dropNames2 at hm
        rcases List.mem_map.1 hm with ⟨l, hl, he2⟩
        have hl2 := List.mem_of_mem_filter hl
        rw [← he2]
        exact of_decide_eq_true (List.mem_filter.1 hl2).2
      · rcases List.mem_map.1 h with ⟨i, _, he⟩
        exact IndexOp.noConfusion he

/-- C3: neither reconciler variant ever drops the implicit primary-key
index, and after either one's trace is applied the `"_id_"` entry of the
store (name and key specification) is exactly what it was before — even
when `"_id_"` is absent from the desired set, and in fact for every
desired set.  For the second variant the trace is read through `getD []`
(a panicking run issues nothing). -/
theorem C3_id_untouched (indexes : List IndexModel) (live : List LiveIndex)
    (hid : "_id_" ∈ liveNames live) :
    (IndexOp.dropOne "_id_" ∉ ensureIndexes1 indexes live
      ∧ (applyOps live (ensureIndexes1 indexes live)).filter
            (fun l => decide (l.name = "_id_"))
          = live.filter (fun l => decide (l.name = "_id_")))
    ∧ (IndexOp.dropOne "_id_" ∉ (ensureIndexes2 indexes live).getD []
      ∧ (applyOps live ((ensureIndexes2 indexes live).getD [])).filter
            (fun l => decide (l.name = "_id_"))
          = live.filter (fun l => decide (l.name = "_id_"))) := by
  have h1 := drop1_not_id indexes live
  have h2 := drop2_not_id indexes live
  refine ⟨⟨fun h => h1 "_id_" h rfl, ?_⟩, ⟨fun h => h2 "_id_" h rfl, ?_⟩⟩
  · exact (idPreserved (ensureIndexes1 indexes live) live hid h1).2
  · exact (idPreserved ((ensureIndexes2 indexes live).getD []) live hid h2).2

/-- C3 witness: the scenario live set (with its `"_id_"` index) against a
desired set that does not mention `"_id_"`. -/
theorem C3_id_untouched_witness :
    ("_id_" ∈ liveNames [liveId, liveA, liveC])
    ∧ ((IndexOp.dropOne "_id_" ∉ ensureIndexes1 [idxA, idxB] [liveId, liveA, liveC]
        ∧ (applyOps [liveId, liveA, liveC]
              (ensureIndexes1 [idxA, idxB] [liveId, liveA, liveC])).filter
              (fun l => decide (l.name = "_id_"))
            = [liveId, liveA, liveC].filter (fun l => decide (l.name = "_id_")))
      ∧ (IndexOp.dropOne "_id_" ∉ (ensureIndexes2 [idxA, idxB] [liveId, liveA, liveC]).getD []
        ∧ (applyOps [liveId, liveA, liveC]
              ((ensureIndexes2 [idxA, idxB] [liveId, liveA, liveC]).getD [])).filter
              (fun l => decide (l.name = "_id_"))
            = [liveId, liveA, liveC].filter (fun l => decide (l.name = "_id_")))) :=
  ⟨by decide, C3_id_untouched [idxA, idxB] [liveId, liveA, liveC] (by decide)⟩
